import Mathlib

/-!
Verification of the content-enhancement decision logic of the Deepresearch
agent (`agent/content_enhancement_decision.py` and
`agent/enhanced_graph_nodes.py`).

Modelling conventions:
* Python strings are Lean `String`s; Python `"sub" in s` (substring test),
  `s.lower()` (ASCII lowering) and `s[:n]` (code-point slicing) are modelled
  by the executable helpers `pyContains`, `pyLower` and `pyTake` below.
* Python floats are modelled as exact rationals (`ℚ`).  All float literals in
  the source are decimal constants (0.1 … 1.0) and the program only adds,
  multiplies by small integers, takes `min` and compares them.
* Failing calls (the LLM transport) are modelled with `Except String`;
  external effects (LLM response, crawler, clock) are oracle parameters, so
  every theorem is quantified over every possible behaviour of the
  collaborators.
-/

/- The Batteries rational operations are irreducible by default, which keeps
`decide` from evaluating concrete scores; scores here are small exact
rationals, so we restore reducibility for this file. -/
attribute [local semireducible] Rat.add Rat.mul Rat.inv

namespace Agent

/-- Boolean prefix test on character lists (helper for the substring test). -/
def isPrefixList : List Char → List Char → Bool
  | [], _ => true
  | _ :: _, [] => false
  | a :: as, b :: bs => a = b && isPrefixList as bs

/-- Boolean substring test on character lists. -/
def containsSub (sub : List Char) : List Char → Bool
  | [] => sub.isEmpty
  | b :: bs => isPrefixList sub (b :: bs) || containsSub sub bs

/-- Python `sub in hay` (substring containment). -/
def pyContains (hay sub : String) : Bool :=
  containsSub sub.data hay.data

/-- Python `s.lower()` (the texts involved are ASCII, where
`Char.toLower` agrees with Python). -/
def pyLower (s : String) : String :=
  ⟨s.data.map Char.toLower⟩

/-- Python `s[:n]`: the first `n` code points of `s`. -/
def pyTake (s : String) (n : ℕ) : String :=
  ⟨s.data.take n⟩

/-- Python `l[-n:]`: the last `n` elements of a list (all of them when the
list is shorter). -/
def lastN {α : Type} (n : ℕ) (l : List α) : List α :=
  l.drop (l.length - n)

/-- A grounding source record `{title, url, snippet}` as assembled by
`content_enhancement_analysis`. -/
structure Source where
  title : String
  url : String
  snippet : String
deriving DecidableEq

/-- One entry of `EnhancementDecision.priority_urls`. -/
structure PriorityUrl where
  title : String
  url : String
  priority_score : ℚ
  reasoning : String
deriving DecidableEq

/-- The `EnhancementDecision` dataclass of
`content_enhancement_decision.py`. -/
structure EnhancementDecision where
  needs_enhancement : Bool
  priority_urls : List PriorityUrl
  reasoning : String
  confidence_score : ℚ
  enhancement_type : String
deriving DecidableEq

/-- `ContentEnhancementDecisionMaker._calculate_url_priority`, translated
line by line: four conditional additive bonuses, an unconditional base score
of 0.1 added last, and a final cap `min(score, 1.0)`. -/
def calculate_url_priority (source : Source) : ℚ :=
  let url := pyLower source.url
  let title := pyLower source.title
  let score : ℚ := 0
  let score := if [".gov", ".edu", ".org"].any (fun d => pyContains url d)
    then score + 4/10 else score
  let score := if ["wikipedia", "arxiv", "ieee", "acm"].any (fun p => pyContains url p)
    then score + 3/10 else score
  let score := if ["report", "study", "research", "analysis", "technical"].any
      (fun k => pyContains title k)
    then score + 2/10 else score
  let score := if ["google", "microsoft", "amazon", "tesla", "nvidia"].any
      (fun c => pyContains url c)
    then score + 2/10 else score
  let score := score + 1/10
  min score 1

/-- The scoring formula as the specification words it: a 0.1 base plus four
independent bonuses, each contributing at most once, capped at 1.0. -/
def urlPriorityScoreSpec (source : Source) : ℚ :=
  min ((1 : ℚ)/10
    + (if [".gov", ".edu", ".org"].any (fun d => pyContains (pyLower source.url) d)
        then (4 : ℚ)/10 else 0)
    + (if ["wikipedia", "arxiv", "ieee", "acm"].any (fun p => pyContains (pyLower source.url) p)
        then (3 : ℚ)/10 else 0)
    + (if ["report", "study", "research", "analysis", "technical"].any
          (fun k => pyContains (pyLower source.title) k)
        then (2 : ℚ)/10 else 0)
    + (if ["google", "microsoft", "amazon", "tesla", "nvidia"].any
          (fun c => pyContains (pyLower source.url) c)
        then (2 : ℚ)/10 else 0)) 1

/-- C1: for every source record, `_calculate_url_priority` computes exactly
the additive capped formula of the specification (each rule contributing at
most once), and the result always lies in `[0, 1]`.  Determinism is inherent:
the function is a pure function of the `(url, title)` pair. -/
theorem calculate_url_priority_spec (source : Source) :
    calculate_url_priority source = urlPriorityScoreSpec source ∧
    0 ≤ calculate_url_priority source ∧ calculate_url_priority source ≤ 1 := by
  refine ⟨?_, ?_, ?_⟩ <;>
    simp only [calculate_url_priority, urlPriorityScoreSpec] <;>
    split_ifs <;> norm_num

/-- Numeric value of an ASCII digit, as a rational. -/
def digitVal (c : Char) : ℚ :=
  ((c.toNat - '0'.toNat : ℕ) : ℚ)

/-- The tail part of the regex `confidence.*?([0-9]\.[0-9])` (without
`re.DOTALL`, so `.` never crosses a newline): scan forward for the first
digit-dot-digit group, failing at the first newline or at the end of the
text.  Returns the value of the captured group, `float("d.d")` being the
exact rational `d + d/10`. -/
def findDigitPair : List Char → Option ℚ
  | [] => none
  | a :: t =>
    if a = '\n' then none
    else
      match t with
      | b :: c :: _ =>
        if a.isDigit && b = '.' && c.isDigit then
          some (digitVal a + digitVal c / 10)
        else findDigitPair t
      | _ => findDigitPair t

/-- `re.search(r'confidence.*?([0-9]\.[0-9])', text)`: the leftmost
occurrence of `confidence` that is followed, on the same line, by a
digit-dot-digit group; the lazy `.*?` captures the first such group. -/
def findConfidence : List Char → Option ℚ
  | [] => none
  | a :: t =>
    if isPrefixList "confidence".data (a :: t) then
      match findDigitPair ((a :: t).drop 10) with
      | some q => some q
      | none => findConfidence t
    else findConfidence t

/-- Renders a non-negative rational that is an exact multiple of 1/100 with
two decimal places, like Python `f"{score:.2f}"` does for the scorer's
outputs (which are exact multiples of 1/10, so no rounding is involved). -/
def formatScore2 (q : ℚ) : String :=
  let n : ℕ := q.num.toNat * 100 / q.den
  let m : ℕ := n % 100
  toString (n / 100) ++ "." ++ (if m < 10 then "0" else "") ++ toString m

/-- A scored source, `(source, score)` as built in `_parse_llm_decision`. -/
abbrev ScoredSource := Source × ℚ

/-- Stable insertion used to model Python's stable sort with
`key=lambda x: x[1], reverse=True`: the inserted element (which comes
earlier in the input than everything already in the list) is placed before
the first element whose score is `≤` its own, hence before later
equal-scored elements and after strictly greater ones. -/
def insertDesc (x : ScoredSource) : List ScoredSource → List ScoredSource
  | [] => [x]
  | y :: ys => if y.2 ≤ x.2 then x :: y :: ys else y :: insertDesc x ys

/-- Stable descending sort by score (`scored_sources.sort(key=lambda x: x[1],
reverse=True)`). -/
def sortDesc : List ScoredSource → List ScoredSource
  | [] => []
  | x :: xs => insertDesc x (sortDesc xs)

/-- `ContentEnhancementDecisionMaker._parse_llm_decision`, translated line by
line.  The text is lowered first; the basic decision is a substring test; the
confidence comes from the regex model above with default 0.5; the type is the
first matching literal; the priority urls are the top `max_urls` scored
sources that score strictly above 0.3. -/
def parse_llm_decision (decision_text : String) (grounding_sources : List Source) :
    EnhancementDecision :=
  let t := pyLower decision_text
  let needs_enhancement := pyContains t "enhance" && !(pyContains t "no_enhance")
  let confidence_score : ℚ := (findConfidence t.data).getD (1/2)
  let enhancement_type :=
    if pyContains t "selective" then "selective"
    else if pyContains t "comprehensive" then "comprehensive"
    else if needs_enhancement then "selective"
    else "none"
  let priority_urls :=
    if needs_enhancement && !grounding_sources.isEmpty then
      let scored_sources := grounding_sources.map (fun s => (s, calculate_url_priority s))
      let sorted := sortDesc scored_sources
      let max_urls := if enhancement_type = "comprehensive" then 3 else 2
      ((sorted.take max_urls).filter (fun p => (3 : ℚ)/10 < p.2)).map (fun p =>
        { title := p.1.title, url := p.1.url, priority_score := p.2,
          reasoning := "Score: " ++ formatScore2 p.2 })
    else []
  { needs_enhancement := needs_enhancement
    priority_urls := priority_urls
    reasoning := t
    confidence_score := confidence_score
    enhancement_type := enhancement_type }

/-- The priority-url selection as the specification words it: score every
source, sort descending (stable), keep only scores strictly above 0.3, then
cap the count at 3 for a comprehensive enhancement and at 2 otherwise. -/
def priorityUrlsSpec (decision_text : String) (grounding_sources : List Source) :
    List PriorityUrl :=
  let max_urls :=
    if (parse_llm_decision decision_text grounding_sources).enhancement_type = "comprehensive"
    then 3 else 2
  ((((sortDesc (grounding_sources.map (fun s => (s, calculate_url_priority s)))).filter
      (fun p => (3 : ℚ)/10 < p.2)).take max_urls).map (fun p =>
    { title := p.1.title, url := p.1.url, priority_score := p.2,
      reasoning := "Score: " ++ formatScore2 p.2 }))

/-- What `firecrawl_app.scrape_url` returns on success: a success flag and
an optional markdown payload (`result.markdown` may be `None`). -/
structure CrawlRes where
  success : Bool
  markdown : Option String
deriving DecidableEq

/-- Outcome of one `scrape_url` call: it can raise, return a falsy result,
or return a result object. -/
inductive ScrapeOutcome where
  | raised (msg : String)
  | returned (result : Option CrawlRes)
deriving DecidableEq

/-- The external collaborators of `content_enhancement_analysis`: the LLM
(prompt to completion text, or a transport error), the crawler (indexed by
call position), and the clock (`datetime.now().isoformat()` per call). -/
structure Oracle where
  llmResponse : String → Except String String
  scrape : ℕ → String → ScrapeOutcome
  now : ℕ → String

/-- The slice of the shared `OverallState` read by the three node functions.
`plan` holds the task descriptions, and `messages_topic` stands for
`get_research_topic(state["messages"])` (the helper lives in `agent/utils.py`,
outside this fragment). -/
structure OverallState where
  plan : List String
  current_task_pointer : ℕ
  user_query : Option String
  messages_topic : String
  web_research_result : List String
  sources_gathered : List Source
  research_loop_count : ℕ
  enhancement_status : Option String
  enhanced_sources_count : ℕ

/-- One successfully crawled record as assembled inside
`content_enhancement_analysis`. -/
structure EnhancedResult where
  url : String
  title : String
  original_priority : ℚ
  enhanced_content : String
  content_length : ℕ
  source_type : String
  timestamp : String
deriving DecidableEq

/-- Modelled from the spec: the base reflection result
`{is_sufficient, knowledge_gap, ...}` (the `ReflectionState` shape and the
base `reflection` node live in `agent/state.py` / `agent/graph.py`, outside
this fragment); `follow_up_queries` stands for the remaining fields. -/
structure ReflectionState where
  is_sufficient : Bool
  knowledge_gap : String
  follow_up_queries : List String
deriving DecidableEq

/-- The partial state update returned by `content_enhancement_analysis`.
A `none` field means the key is absent from the returned dict, so the
engine's merge leaves the previous value of that key untouched. -/
structure StateUpdate where
  enhancement_decision : Option EnhancementDecision := none
  enhancement_status : Option String := none
  enhancement_error : Option String := none
  enhanced_content_results : Option (List EnhancedResult) := none
  web_research_result : Option (List String) := none
  enhanced_sources_count : Option ℕ := none
deriving DecidableEq

/-- `ContentEnhancementDecisionMaker._build_analysis_prompt`: the fixed
rubric around the topic, the last three findings and the first five
sources. -/
def build_analysis_prompt (research_topic : String) (current_findings : List String)
    (grounding_sources : List Source) : String :=
  let findings_summary := String.intercalate "\n---\n" (lastN 3 current_findings)
  let sources_list := String.intercalate "\n"
    ((grounding_sources.take 5).map (fun s => "- " ++ s.title ++ ": " ++ s.url))
  "You are a research quality assessment expert. Analyze current research quality and determine if deep content enhancement is needed.\n\nResearch Topic: "
    ++ research_topic
    ++ "\n\nCurrent Findings:\n" ++ findings_summary
    ++ "\n\nAvailable Sources:\n" ++ sources_list
    ++ "\n\nEvaluation Criteria:\n\n1. **Signals of Insufficient Depth**:\n   - Lack of specific data, statistics, case studies\n   - Vague descriptions, missing technical details\n   - Missing key companies/projects/implementations\n   - Low-quality sources (non-authoritative)\n\n2. **When Deep Crawling is Needed**:\n   - Topic requires detailed technical explanations\n   - Missing key supporting data\n   - Authoritative sources with truncated content\n   - Need for complete reports/studies\n\n3. **Source Value Assessment**:\n   - Official sites/docs: High value\n   - Academic papers/studies: High value  \n   - Wikipedia/Encyclopedias: Medium value\n   - News articles: Varies by detail\n   - Blogs/Forums: Low value\n\nResponse Format:\n\n**Decision**: [ENHANCE/NO_ENHANCE]\n**Confidence**: [0.1-1.0]\n**Enhancement Type**: [selective/comprehensive/none]\n**URLs to Process**: [0-3]\n**Reasoning**: \n[Explain your assessment, including content gaps and expected improvements]\n\n**Priority URLs** (if enhancing):\n[Top URLs for deep crawling, in priority order]\"\n"

/-- Python truthiness of `os.getenv("FIRECRAWL_API_KEY")`: set and
non-empty.  The decision maker's `firecrawl_app` is constructed under the
same test. -/
def envTruthy : Option String → Bool
  | none => false
  | some s => !(s == "")

/-- Topic derivation at the top of `content_enhancement_analysis`: the
current plan task if the pointer is in range, else the (truthy) user query,
else the topic extracted from the message history. -/
def derive_topic (s : OverallState) : String :=
  if !s.plan.isEmpty && s.current_task_pointer < s.plan.length then
    s.plan.getD s.current_task_pointer ""
  else
    match s.user_query with
    | some q => if q = "" then s.messages_topic else q
    | none => s.messages_topic

/-- Extraction of the last ten gathered sources into the simplified
`{title, url, snippet}` shape. -/
def grounding_of (s : OverallState) : List Source :=
  (lastN 10 s.sources_gathered).map
    (fun src => { title := src.title, url := src.url, snippet := src.snippet })

/-- One iteration of the crawl loop: skip empty urls, catch per-url
exceptions, keep a record only for a truthy result with `success`. -/
def crawlStep (o : Oracle) (i : ℕ) (u : PriorityUrl) : Option EnhancedResult :=
  if u.url = "" then none
  else
    match o.scrape i u.url with
    | .raised _ => none
    | .returned none => none
    | .returned (some r) =>
      if r.success then
        let markdown_content := r.markdown.getD ""
        some { url := u.url, title := u.title, original_priority := u.priority_score,
               enhanced_content := markdown_content,
               content_length := markdown_content.length,
               source_type := "firecrawl_enhanced", timestamp := o.now i }
      else none

/-- The sequential crawl loop over the priority urls: successes accumulate
in order, failures are skipped. -/
def crawlLoop (o : Oracle) (urls : List PriorityUrl) : List EnhancedResult :=
  urls.enum.filterMap (fun p => crawlStep o p.1 p.2)

/-- The delimited markdown block built for each enhanced result (the
f-string of lines 140-150): title, source url, character count, the content
truncated to its first 3000 characters with an ellipsis marker exactly when
it is longer, and a separator. -/
def formatBlock (r : EnhancedResult) : String :=
  "\n\n## Deep Content Enhancement - " ++ r.title
    ++ "\n\nSource: " ++ r.url
    ++ "\nContent Length: " ++ toString r.content_length ++ " characters\n\n"
    ++ pyTake r.enhanced_content 3000
    ++ (if 3000 < r.enhanced_content.length then "..." else "")
    ++ "\n\n---\n"

/-- The part of `content_enhancement_analysis` after the LLM call succeeded
with `text`: record the decision, then branch on skipped / skipped_no_api /
completed / failed exactly as the source does. -/
def nodeSuccess (env : Option String) (o : Oracle) (grounding : List Source)
    (text : String) : StateUpdate :=
  let decision := parse_llm_decision text grounding
  if decision.needs_enhancement = false then
    { enhancement_decision := some decision, enhancement_status := some "skipped" }
  else if envTruthy env = false then
    { enhancement_decision := some decision, enhancement_status := some "skipped_no_api" }
  else
    let enhanced_results := crawlLoop o decision.priority_urls
    if enhanced_results.isEmpty then
      { enhancement_decision := some decision, enhancement_status := some "failed" }
    else
      { enhancement_decision := some decision,
        enhanced_content_results := some enhanced_results,
        web_research_result := some (enhanced_results.map formatBlock),
        enhancement_status := some "completed",
        enhanced_sources_count := some enhanced_results.length }

/-- The body of the `try` block of `content_enhancement_analysis`.  The only
failure channel of the embedding is the LLM transport (crawl failures are
caught per url inside the loop); its error propagates out of
`analyze_enhancement_need` into this body. -/
def nodeBody (env : Option String) (o : Oracle) (s : OverallState) :
    Except String StateUpdate :=
  let topic := derive_topic s
  let grounding := grounding_of s
  match o.llmResponse (build_analysis_prompt topic s.web_research_result grounding) with
  | .error e => .error e
  | .ok text => .ok (nodeSuccess env o grounding text)

/-- The update produced by the top-level `except` clause. -/
def errorUpdate (e : String) : StateUpdate :=
  { enhancement_status := some "error",
    enhancement_error := some ("Content enhancement analysis node exception: " ++ e) }

/-- `content_enhancement_analysis`: the body wrapped in the top-level
`try`/`except` that converts any exception into the error update. -/
def content_enhancement_analysis (env : Option String) (o : Oracle)
    (s : OverallState) : StateUpdate :=
  match nodeBody env o s with
  | .ok u => u
  | .error e => errorUpdate e

/-- `should_enhance_content`: the four gating checks in source order, each
short-circuiting to `"continue_without_enhancement"`. -/
def should_enhance_content (env : Option String) (s : OverallState) : String :=
  if !(envTruthy env) then "continue_without_enhancement"
  else if s.research_loop_count < 1 then "continue_without_enhancement"
  else if s.enhancement_status = some "completed" ∨ s.enhancement_status = some "skipped" then
    "continue_without_enhancement"
  else if s.web_research_result.length < 1 then "continue_without_enhancement"
  else "analyze_enhancement_need"

/-- `enhanced_reflection`, given the result `base` of the base reflection
call: when enhancement completed with at least one source and the base
verdict is insufficient, a boost `min(count * 0.3, 0.8)` of at least 0.6
flips the verdict and replaces the knowledge gap; otherwise `base` is
returned unchanged. -/
def enhanced_reflection (s : OverallState) (base : ReflectionState) : ReflectionState :=
  if s.enhancement_status = some "completed" ∧ 0 < s.enhanced_sources_count then
    if base.is_sufficient = false then
      let enhancement_boost : ℚ := min ((s.enhanced_sources_count : ℚ) * (3/10)) (8/10)
      if (6 : ℚ)/10 ≤ enhancement_boost then
        { base with
          is_sufficient := true
          knowledge_gap := "Content has been sufficiently supplemented through deep crawling" }
      else base
    else base
  else base

/-! Supporting lemmas about the stable descending sort. -/

theorem mem_insertDesc {x z : ScoredSource} {l : List ScoredSource} :
    z ∈ insertDesc x l ↔ z = x ∨ z ∈ l := by
  induction l with
  | nil => simp [insertDesc]
  | cons y ys ih =>
    by_cases h : y.2 ≤ x.2
    · simp [insertDesc, h]
    · simp only [insertDesc, if_neg h, List.mem_cons, ih]
      tauto

theorem pairwise_insertDesc {x : ScoredSource} {l : List ScoredSource}
    (hl : l.Pairwise (fun p q => q.2 ≤ p.2)) :
    (insertDesc x l).Pairwise (fun p q => q.2 ≤ p.2) := by
  induction l with
  | nil => simp [insertDesc]
  | cons y ys ih =>
    rw [List.pairwise_cons] at hl
    by_cases h : y.2 ≤ x.2
    · rw [insertDesc, if_pos h, List.pairwise_cons]
      refine ⟨?_, List.pairwise_cons.2 hl⟩
      intro z hz
      rcases List.mem_cons.1 hz with rfl | hz
      · exact h
      · exact le_trans (hl.1 z hz) h
    · rw [insertDesc, if_neg h, List.pairwise_cons]
      refine ⟨?_, ih hl.2⟩
      intro z hz
      rcases mem_insertDesc.1 hz with rfl | hz
      · exact le_of_lt (lt_of_not_le h)
      · exact hl.1 z hz

theorem pairwise_sortDesc (l : List ScoredSource) :
    (sortDesc l).Pairwise (fun p q => q.2 ≤ p.2) := by
  induction l with
  | nil => exact List.Pairwise.nil
  | cons x xs ih => exact pairwise_insertDesc ih

/-- On a list where the predicate can only turn from true to false along the
pairwise order, filtering commutes with taking a prefix.  This is what makes
truncate-then-filter (the code) agree with filter-then-truncate (the spec) on
a descending-sorted list. -/
theorem filter_take_of_pairwise {α : Type} {P : α → Bool} {R : α → α → Prop}
    (hPR : ∀ a b, R a b → P b = true → P a = true) :
    ∀ (l : List α) (k : ℕ), l.Pairwise R →
      (l.take k).filter P = (l.filter P).take k := by
  intro l
  induction l with
  | nil => intro k _; simp
  | cons a t ih =>
    intro k hp
    rw [List.pairwise_cons] at hp
    cases k with
    | zero => simp
    | succ k =>
      rw [List.take_succ_cons]
      by_cases ha : P a = true
      · rw [List.filter_cons_of_pos ha, List.filter_cons_of_pos ha,
          List.take_succ_cons, ih k hp.2]
      · rw [List.filter_cons_of_neg ha, List.filter_cons_of_neg ha]
        have hnil : t.filter P = [] := by
          rw [List.filter_eq_nil_iff]
          intro b hb hPb
          exact ha (hPR a b (hp.1 b hb) hPb)
        have hnil' : (t.take k).filter P = [] := by
          rw [List.filter_eq_nil_iff]
          intro b hb hPb
          exact ha (hPR a b (hp.1 b (List.take_subset k t hb)) hPb)
        rw [hnil, hnil', List.take_nil]

/-- C2: whenever the parsed decision calls for enhancement and at least one
grounding source is available, the `priority_urls` field is exactly the
specification's description: the sources scoring strictly above 0.3, in
descending score order with ties in original order, truncated to 3 entries
for a comprehensive enhancement and 2 otherwise, each rendered with its
title, url, score and a `"Score: x.xx"` reasoning string. -/
theorem parse_llm_decision_priority_urls (decision_text : String)
    (grounding_sources : List Source)
    (hneeds : (parse_llm_decision decision_text grounding_sources).needs_enhancement = true)
    (hne : grounding_sources ≠ []) :
    (parse_llm_decision decision_text grounding_sources).priority_urls =
      priorityUrlsSpec decision_text grounding_sources := by
  have hempty : grounding_sources.isEmpty = false := List.isEmpty_eq_false.2 hne
  simp only [parse_llm_decision] at hneeds ⊢
  simp only [priorityUrlsSpec, parse_llm_decision]
  rw [hneeds, hempty]
  simp only [Bool.true_and, Bool.not_false, if_true]
  rw [filter_take_of_pairwise (P := fun p => (3 : ℚ)/10 < p.2)
    (R := fun p q : ScoredSource => q.2 ≤ p.2)
    (fun a b hR hPb => decide_eq_true (lt_of_lt_of_le (of_decide_eq_true hPb) hR))
    _ _ (pairwise_sortDesc _)]

/-- C6, failing input: the confidence regex captures any single-digit pair
`d.d`, so the text `"Confidence: 9.9"` parses to a confidence score of 9.9,
which violates the documented range `[0, 1]` of `confidence_score`
(`# 0-1` on the dataclass field). -/
theorem parse_llm_decision_confidence_out_of_range :
    (parse_llm_decision "Confidence: 9.9" []).confidence_score = 99/10 ∧
    ¬((parse_llm_decision "Confidence: 9.9" []).confidence_score ≤ 1) := by
  constructor <;> decide

/-- C7: `needs_enhancement` holds exactly when the lower-cased text contains
the string `"enhance"` and does not contain `"no_enhance"`; in particular
`"Decision: ENHANCE"` yields `true` and `"NO_ENHANCE"` yields `false`. -/
theorem parse_llm_decision_needs_enhancement :
    (∀ (decision_text : String) (grounding_sources : List Source),
      (parse_llm_decision decision_text grounding_sources).needs_enhancement =
        (pyContains (pyLower decision_text) "enhance" &&
          !(pyContains (pyLower decision_text) "no_enhance"))) ∧
    (parse_llm_decision "Decision: ENHANCE" []).needs_enhancement = true ∧
    (parse_llm_decision "NO_ENHANCE" []).needs_enhancement = false :=
  ⟨fun _ _ => rfl, by decide, by decide⟩

/-- Concrete grounding sources used by the executable witnesses: one
authoritative source (scores 0.4 + 0.2 + 0.1 = 0.7) and one low-value source
(base score 0.1 only). -/
def demoSources : List Source :=
  [{ title := "AI Research Report", url := "https://ai.example.gov/report", snippet := "s" },
   { title := "Some blog", url := "http://blog.example.com", snippet := "s" }]

/-- Witness for C2 at a concrete input: the text asks to enhance and two
sources are available, so the theorem applies. -/
theorem parse_llm_decision_priority_urls_witness :
    ((parse_llm_decision "enhance" demoSources).needs_enhancement = true ∧
      demoSources ≠ []) ∧
    (parse_llm_decision "enhance" demoSources).priority_urls =
      priorityUrlsSpec "enhance" demoSources :=
  ⟨⟨by decide, by decide⟩,
    parse_llm_decision_priority_urls "enhance" demoSources (by decide) (by decide)⟩

/-- The boost threshold `min(count * 0.3, 0.8) ≥ 0.6` is reached exactly for
two or more enhanced sources. -/
theorem boost_ge_iff (n : ℕ) :
    ((6 : ℚ)/10 ≤ min ((n : ℚ) * (3/10)) (8/10)) ↔ 2 ≤ n := by
  rw [le_min_iff]
  constructor
  · rintro ⟨h1, _⟩
    by_contra hn
    push_neg at hn
    interval_cases n <;> norm_num at h1
  · intro hn
    have h2 : (2 : ℚ) ≤ (n : ℚ) := by exact_mod_cast hn
    constructor
    · nlinarith
    · norm_num

/-- C3: `enhanced_reflection` overrides the base verdict (forcing
`is_sufficient` and replacing `knowledge_gap` with the fixed supplemented
message) exactly when enhancement completed, at least one source was
enhanced, the base verdict is insufficient and the boost
`min(count * 0.3, 0.8)` reaches 0.6 — equivalently when the count is at
least 2; in every other case the base result is returned unmodified. -/
theorem enhanced_reflection_override (s : OverallState) (base : ReflectionState) :
    (enhanced_reflection s base =
      if s.enhancement_status = some "completed" ∧ 0 < s.enhanced_sources_count ∧
          base.is_sufficient = false ∧
          (6 : ℚ)/10 ≤ min ((s.enhanced_sources_count : ℚ) * (3/10)) (8/10)
      then { base with
             is_sufficient := true
             knowledge_gap :=
               "Content has been sufficiently supplemented through deep crawling" }
      else base) ∧
    (enhanced_reflection s base =
      if s.enhancement_status = some "completed" ∧ 0 < s.enhanced_sources_count ∧
          base.is_sufficient = false ∧ 2 ≤ s.enhanced_sources_count
      then { base with
             is_sufficient := true
             knowledge_gap :=
               "Content has been sufficiently supplemented through deep crawling" }
      else base) := by
  have h1 : enhanced_reflection s base =
      if s.enhancement_status = some "completed" ∧ 0 < s.enhanced_sources_count ∧
          base.is_sufficient = false ∧
          (6 : ℚ)/10 ≤ min ((s.enhanced_sources_count : ℚ) * (3/10)) (8/10)
      then { base with
             is_sufficient := true
             knowledge_gap :=
               "Content has been sufficiently supplemented through deep crawling" }
      else base := by
    simp only [enhanced_reflection]
    by_cases hc : s.enhancement_status = some "completed" ∧ 0 < s.enhanced_sources_count
    · by_cases hb : base.is_sufficient = false
      · by_cases hm : (6 : ℚ)/10 ≤ min ((s.enhanced_sources_count : ℚ) * (3/10)) (8/10)
        · rw [if_pos hc, if_pos hb, if_pos hm, if_pos ⟨hc.1, hc.2, hb, hm⟩]
        · rw [if_pos hc, if_pos hb, if_neg hm, if_neg (fun h => hm h.2.2.2)]
      · rw [if_pos hc, if_neg hb, if_neg (fun h => hb h.2.2.1)]
    · rw [if_neg hc, if_neg (fun h => hc ⟨h.1, h.2.1⟩)]
  refine ⟨h1, h1.trans (if_congr ?_ rfl rfl)⟩
  exact and_congr_right fun _ => and_congr_right fun _ => and_congr_right fun _ =>
    boost_ge_iff _

/-- C5: `should_enhance_content` routes to `"analyze_enhancement_need"`
exactly when the crawl credential is configured (set and non-empty), at
least one research loop has completed, the enhancement status is neither
`"completed"` nor `"skipped"`, and some research findings exist; otherwise
it routes to `"continue_without_enhancement"`.  The definition checks the
conditions in exactly the source order, each failing check
short-circuiting. -/
theorem should_enhance_content_spec (env : Option String) (s : OverallState) :
    should_enhance_content env s =
      if envTruthy env = true ∧ 1 ≤ s.research_loop_count ∧
          s.enhancement_status ≠ some "completed" ∧
          s.enhancement_status ≠ some "skipped" ∧
          s.web_research_result ≠ []
      then "analyze_enhancement_need" else "continue_without_enhancement" := by
  by_cases h1 : envTruthy env = true
  · by_cases h2 : s.research_loop_count < 1
    · have h2' : ¬ (1 ≤ s.research_loop_count) := by omega
      simp [should_enhance_content, h1, h2, h2']
    · by_cases h3 : s.enhancement_status = some "completed" ∨
          s.enhancement_status = some "skipped"
      · rcases h3 with h3 | h3 <;>
          simp [should_enhance_content, h1, h2, h3]
      · push_neg at h3
        by_cases h4 : s.web_research_result.length < 1
        · have h4' : s.web_research_result = [] := by
            cases hw : s.web_research_result with
            | nil => rfl
            | cons a t => rw [hw] at h4; simp at h4
          simp [should_enhance_content, h1, h2, h3.1, h3.2, h4']
        · have h4' : s.web_research_result ≠ [] := by
            intro hw
            rw [hw] at h4
            simp at h4
          have h2' : 1 ≤ s.research_loop_count := by omega
          simp [should_enhance_content, h1, h2, h3.1, h3.2, h4, h4', h2']
  · simp [should_enhance_content, h1, Bool.not_eq_true _ ▸ h1]

/-- C4: the analysis node never propagates a failure: whenever the body of
the `try` block fails with message `e`, the node returns the error update
`{enhancement_status: "error", enhancement_error: <message>}` instead. -/
theorem content_enhancement_analysis_catches (env : Option String) (o : Oracle)
    (s : OverallState) (e : String) (h : nodeBody env o s = Except.error e) :
    content_enhancement_analysis env o s = errorUpdate e := by
  simp [content_enhancement_analysis, h]

/-- An oracle whose LLM call fails with a transport error. -/
def oracleFail : Oracle :=
  { llmResponse := fun _ => .error "llm transport failure"
    scrape := fun _ _ => .raised "network down"
    now := fun _ => "2026-01-01T00:00:00" }

/-- An oracle whose LLM declines enhancement. -/
def oracleSkip : Oracle :=
  { llmResponse := fun _ => .ok "**Decision**: NO_ENHANCE"
    scrape := fun _ _ => .raised "network down"
    now := fun _ => "2026-01-01T00:00:00" }

/-- An oracle whose LLM requests enhancement and whose crawler succeeds. -/
def oracleEnhance : Oracle :=
  { llmResponse := fun _ => .ok "**Decision**: ENHANCE"
    scrape := fun _ _ => .returned (some { success := true, markdown := some "Deep 2024 detail" })
    now := fun _ => "2026-01-01T00:00:00" }

/-- A concrete shared state used by the executable witnesses. -/
def stateDemo : OverallState :=
  { plan := ["study ai impact"]
    current_task_pointer := 0
    user_query := none
    messages_topic := "ai impact"
    web_research_result := ["initial finding"]
    sources_gathered := demoSources
    research_loop_count := 1
    enhancement_status := none
    enhanced_sources_count := 0 }

/-- Witness for C4: a concrete run whose LLM call fails. -/
theorem content_enhancement_analysis_catches_witness :
    nodeBody none oracleFail stateDemo = Except.error "llm transport failure" ∧
    content_enhancement_analysis none oracleFail stateDemo =
      errorUpdate "llm transport failure" :=
  ⟨rfl, content_enhancement_analysis_catches none oracleFail stateDemo
    "llm transport failure" rfl⟩

/-- C8, counterexample: on the error path the returned update has
`enhancement_status = "error"` but no `enhancement_decision` key at all, so
the decision fields are not recorded "regardless of outcome". -/
theorem analysis_error_update_lacks_decision :
    (content_enhancement_analysis none oracleFail stateDemo).enhancement_status =
      some "error" ∧
    (content_enhancement_analysis none oracleFail stateDemo).enhancement_decision =
      none :=
  ⟨rfl, rfl⟩

/-- C8 as amended: every invocation that does not end on the error path
(statuses skipped, skipped_no_api, failed and completed) records the
decision's fields under `enhancement_decision` in the returned update. -/
theorem analysis_records_decision_unless_error (env : Option String) (o : Oracle)
    (s : OverallState)
    (h : (content_enhancement_analysis env o s).enhancement_status ≠ some "error") :
    ∃ d, (content_enhancement_analysis env o s).enhancement_decision = some d := by
  cases hl : o.llmResponse
      (build_analysis_prompt (derive_topic s) s.web_research_result (grounding_of s)) with
  | error e =>
    exact absurd (by simp [content_enhancement_analysis, nodeBody, hl, errorUpdate]) h
  | ok text =>
    have hrun : content_enhancement_analysis env o s =
        nodeSuccess env o (grounding_of s) text := by
      simp [content_enhancement_analysis, nodeBody, hl]
    rw [hrun]
    simp only [nodeSuccess]
    split_ifs <;> exact ⟨_, rfl⟩

/-- Witness for the amended C8: a concrete run that ends with status
`"skipped"` and still records the decision. -/
theorem analysis_records_decision_unless_error_witness :
    ((content_enhancement_analysis (some "fc-key") oracleSkip stateDemo).enhancement_status ≠
      some "error") ∧
    ∃ d, (content_enhancement_analysis (some "fc-key") oracleSkip stateDemo).enhancement_decision =
      some d :=
  ⟨by decide, analysis_records_decision_unless_error (some "fc-key") oracleSkip stateDemo
    (by decide)⟩

/-- C9: whenever the node finishes with status `"completed"` it gathered a
non-empty list of crawl results, and the returned update stores the raw
results, their count, and — replacing the previous findings wholesale — the
formatted markdown blocks, each embedding title, source url, character
count, the content truncated to 3000 characters and an ellipsis marker
exactly when the content is longer. -/
theorem analysis_completed_update (env : Option String) (o : Oracle) (s : OverallState)
    (h : (content_enhancement_analysis env o s).enhancement_status = some "completed") :
    ∃ results : List EnhancedResult, results ≠ [] ∧
      (content_enhancement_analysis env o s).enhanced_content_results = some results ∧
      (content_enhancement_analysis env o s).enhanced_sources_count =
        some results.length ∧
      (content_enhancement_analysis env o s).web_research_result =
        some (results.map (fun r =>
          "\n\n## Deep Content Enhancement - " ++ r.title
            ++ "\n\nSource: " ++ r.url
            ++ "\nContent Length: " ++ toString r.content_length ++ " characters\n\n"
            ++ pyTake r.enhanced_content 3000
            ++ (if 3000 < r.enhanced_content.length then "..." else "")
            ++ "\n\n---\n")) := by
  cases hl : o.llmResponse
      (build_analysis_prompt (derive_topic s) s.web_research_result (grounding_of s)) with
  | error e =>
    have hrun : content_enhancement_analysis env o s = errorUpdate e := by
      simp [content_enhancement_analysis, nodeBody, hl]
    rw [hrun] at h
    exact absurd h (by simp [errorUpdate])
  | ok text =>
    have hrun : content_enhancement_analysis env o s =
        nodeSuccess env o (grounding_of s) text := by
      simp [content_enhancement_analysis, nodeBody, hl]
    rw [hrun] at h ⊢
    simp only [nodeSuccess] at h ⊢
    split_ifs at h ⊢ with h1 h2 h3
    · exact absurd h (by simp)
    · exact absurd h (by simp)
    · exact absurd h (by simp)
    · refine ⟨crawlLoop o (parse_llm_decision text (grounding_of s)).priority_urls,
        ?_, rfl, rfl, rfl⟩
      intro hnil
      exact h3 (by rw [hnil]; rfl)

/-- Witness for C9: a concrete run that completes with one crawled source. -/
theorem analysis_completed_update_witness :
    ((content_enhancement_analysis (some "fc-key") oracleEnhance stateDemo).enhancement_status =
      some "completed") ∧
    ∃ results : List EnhancedResult, results ≠ [] ∧
      (content_enhancement_analysis (some "fc-key") oracleEnhance stateDemo).enhanced_content_results =
        some results ∧
      (content_enhancement_analysis (some "fc-key") oracleEnhance stateDemo).enhanced_sources_count =
        some results.length ∧
      (content_enhancement_analysis (some "fc-key") oracleEnhance stateDemo).web_research_result =
        some (results.map (fun r =>
          "\n\n## Deep Content Enhancement - " ++ r.title
            ++ "\n\nSource: " ++ r.url
            ++ "\nContent Length: " ++ toString r.content_length ++ " characters\n\n"
            ++ pyTake r.enhanced_content 3000
            ++ (if 3000 < r.enhanced_content.length then "..." else "")
            ++ "\n\n---\n")) :=
  ⟨by decide,
    analysis_completed_update (some "fc-key") oracleEnhance stateDemo (by decide)⟩

/-- C10: whenever the node does not finish with status `"completed"` (so it
finished skipped, skipped_no_api, failed or error), the returned update
carries none of the keys `web_research_result`, `enhanced_content_results`
and `enhanced_sources_count`, leaving previously gathered findings in the
shared state untouched by the merge. -/
theorem analysis_not_completed_frame (env : Option String) (o : Oracle)
    (s : OverallState)
    (h : (content_enhancement_analysis env o s).enhancement_status ≠ some "completed") :
    (content_enhancement_analysis env o s).web_research_result = none ∧
    (content_enhancement_analysis env o s).enhanced_content_results = none ∧
    (content_enhancement_analysis env o s).enhanced_sources_count = none := by
  cases hl : o.llmResponse
      (build_analysis_prompt (derive_topic s) s.web_research_result (grounding_of s)) with
  | error e =>
    have hrun : content_enhancement_analysis env o s = errorUpdate e := by
      simp [content_enhancement_analysis, nodeBody, hl]
    rw [hrun]
    exact ⟨rfl, rfl, rfl⟩
  | ok text =>
    have hrun : content_enhancement_analysis env o s =
        nodeSuccess env o (grounding_of s) text := by
      simp [content_enhancement_analysis, nodeBody, hl]
    rw [hrun] at h ⊢
    simp only [nodeSuccess] at h ⊢
    split_ifs at h ⊢
    · exact ⟨rfl, rfl, rfl⟩
    · exact ⟨rfl, rfl, rfl⟩
    · exact ⟨rfl, rfl, rfl⟩
    · exact absurd rfl h

/-- Witness for C10: a concrete run that ends with status `"skipped"` and
whose update leaves the three result keys absent. -/
theorem analysis_not_completed_frame_witness :
    ((content_enhancement_analysis none oracleSkip stateDemo).enhancement_status ≠
      some "completed") ∧
    ((content_enhancement_analysis none oracleSkip stateDemo).web_research_result = none ∧
      (content_enhancement_analysis none oracleSkip stateDemo).enhanced_content_results = none ∧
      (content_enhancement_analysis none oracleSkip stateDemo).enhanced_sources_count = none) :=
  ⟨by decide, analysis_not_completed_frame none oracleSkip stateDemo (by decide)⟩

end Agent
